import Mathlib

/-!
Verification of the Modpack Bridge (`src/bridge.js`).

The bridge is a local agent exposing an HTTP surface; its core is the
per-file install orchestrator (`POST /install-files`), which resolves a
game-instance root, optionally resets well-known subdirectories, and
downloads items into them.  This file gives a shallow embedding of the
relevant code: filesystem mutation is modelled as explicit state passing
over a list-of-components path model, the network is an oracle mapping a
URL to a fetch result, and each JS value that can be `undefined`/empty is
an `Option` with an explicit truthiness test.
-/

/-- A filesystem path, as its list of components from the root.
`path.join` on clean components is list append. -/
abbrev FPath := List String

/-- JS truthiness of an optional string: `undefined`, `null` and `""` are
falsy, every other string is truthy. -/
def truthyS : Option String → Bool
  | none => false
  | some s => s ≠ ""

/-- JS truthiness of an optional path-valued field (an absent field or the
empty string are falsy). -/
def truthyP : Option FPath → Bool
  | none => false
  | some p => p ≠ []

/-- Character-level split on the separator, yielding the raw segments
(possibly empty) between slashes. -/
def splitSegs : List Char → List (List Char)
  | [] => [[]]
  | c :: cs =>
    match splitSegs cs with
    | [] => [[]]
    | seg :: rest => if c = '/' then [] :: seg :: rest else (c :: seg) :: rest

/-- Split a path-bearing string into its components, dropping empty
segments, as `path.join` does before normalising. -/
def splitPath (s : String) : List String :=
  ((splitSegs s.toList).map (fun seg => String.mk seg)).filter
    (fun seg => seg ≠ "")

/-- Segment normalisation performed by Node `path.join`: `.` is dropped and
`..` removes the preceding component. -/
def normSegs (acc : List String) : List String → List String
  | [] => acc
  | seg :: rest =>
    if seg = "." then normSegs acc rest
    else if seg = ".." then normSegs acc.dropLast rest
    else normSegs (acc ++ [seg]) rest

/-- `path.join(dir, name)` where `dir` is already in component form and
`name` is a raw string that may itself contain separators and dot
segments. -/
def joinPath (dir : FPath) (name : String) : FPath :=
  normSegs [] (dir ++ splitPath name)

/-- The filesystem state: which directories and which files exist.
Contents of files are not tracked; no claim depends on them. -/
structure FS where
  dirs : List FPath
  files : List FPath
deriving DecidableEq, Repr

/-- `fs.existsSync` restricted to directories. -/
def dirExists (p : FPath) (fs : FS) : Bool := decide (p ∈ fs.dirs)

/-- `fs.existsSync` restricted to files. -/
def fileExists (p : FPath) (fs : FS) : Bool := decide (p ∈ fs.files)

/-- `ensureDir` (bridge.js 119-123): `mkdirSync` with `recursive: true`
when the directory is missing.  Creation of missing ancestors is elided:
no claim mentions them. -/
def ensureDir (p : FPath) (fs : FS) : FS :=
  if p ∈ fs.dirs then fs else { fs with dirs := p :: fs.dirs }

/-- `fs.createWriteStream(destPath)` creates (or truncates) the
destination file as soon as the stream opens. -/
def createFile (p : FPath) (fs : FS) : FS :=
  if p ∈ fs.files then fs else { fs with files := p :: fs.files }

/-- `fs.unlink(destPath)`: removes the file at the path; never touches
directories (on a directory it fails, and the code ignores the error). -/
def removeFile (p : FPath) (fs : FS) : FS :=
  { fs with files := fs.files.filter (fun f => f ≠ p) }

/-- `fs.rmSync(target, recursive, force)`: removes the target and
everything below it. -/
def rmRec (target : FPath) (fs : FS) : FS :=
  { dirs := fs.dirs.filter (fun d => !(target.isPrefixOf d)),
    files := fs.files.filter (fun f => !(target.isPrefixOf f)) }

/-- Outcome of one HTTP GET, as seen by `downloadFile`. -/
inductive FetchResult where
  | ok
  | badStatus (code : Nat)
  | transportError (msg : String)
deriving DecidableEq, Repr

/-- The network: an oracle from URL to the result of fetching it. -/
abbrev Net := String → FetchResult

/-- Errors surfaced by the bridge. -/
inductive BridgeError where
  | downloadFailed (code : Nat)
  | transport (msg : String)
  | unsupportedOS
deriving DecidableEq, Repr

/-- `downloadFile` (bridge.js 126-153): ensure the parent directory,
open the write stream (creating the file), then on a non-200 status or a
transport error unlink the destination and reject; on 200 the body is
streamed and the promise resolves. -/
def downloadFile (net : Net) (url : String) (destPath : FPath) (fs : FS) :
    Except BridgeError Unit × FS :=
  let fs1 := ensureDir destPath.dropLast fs
  let fs2 := createFile destPath fs1
  match net url with
  | .ok => (.ok (), fs2)
  | .badStatus c => (.error (.downloadFailed c), removeFile destPath fs2)
  | .transportError m => (.error (.transport m), removeFile destPath fs2)

/-- A character matched by `[\w\-]` in a JS regex without the unicode
flag: `[A-Za-z0-9_]` or the literal dash. -/
def wordChar (c : Char) : Bool := c.isAlphanum || c = '_' || c = '-'

/-- `folderName.replace(/[^\w\-]+/g, "_")` (bridge.js 104): the regex is
greedy, so each maximal run of non-word characters is one match and is
replaced by a single underscore.  `inRun` records whether the previous
character was part of such a run. -/
def sanitizeChars (inRun : Bool) : List Char → List Char
  | [] => []
  | c :: cs =>
    if wordChar c then c :: sanitizeChars false cs
    else if inRun then sanitizeChars true cs
    else '_' :: sanitizeChars true cs

def sanitizeName (s : String) : String := String.mk (sanitizeChars false s.toList)

/-- The generated identifier of a discovered version folder
(bridge.js 104). -/
def safeId (folderName : String) : String := "ver_" ++ sanitizeName folderName

/-- The machine environment the bridge runs in: whether the platform is
one of win32/darwin/linux, the platform-standard `.minecraft` base path,
and the names of the directories found under its `versions` folder
(empty when the `versions` folder does not exist). -/
structure Env where
  platformSupported : Bool
  mcPath : FPath
  versionFolders : List String
deriving DecidableEq, Repr

/-- `getMinecraftPath` (bridge.js 63-76): the platform-standard base
path, or a thrown `Unsupported OS` error. -/
def getMinecraftPathE (env : Env) : Except BridgeError FPath :=
  if env.platformSupported then .ok env.mcPath else .error .unsupportedOS

/-- One discovered instance record (bridge.js 90-95 and 106-112). -/
structure Instance where
  id : String
  name : String
  path : FPath
  kind : String
deriving DecidableEq, Repr

/-- `detectInstances` (bridge.js 79-117): empty when `getMinecraftPath`
throws; otherwise the default instance followed by one `version`
instance per directory under `versions`, whose root is the version
folder itself. -/
def detectInstances (env : Env) : List Instance :=
  match getMinecraftPathE env with
  | .error _ => []
  | .ok mcPath =>
    ⟨"default", ".minecraft (Default)", mcPath, "default"⟩ ::
      env.versionFolders.map (fun folderName =>
        ⟨safeId folderName, folderName ++ " (Version Folder)",
          mcPath ++ ["versions", folderName], "version"⟩)

/-- The target-selection expression of `/install-files` (bridge.js
259-262): `find(id === instanceId) || find(id === "default") ||
instances[0]`. -/
def pickInstance (instances : List Instance) (instanceId : Option String) :
    Option Instance :=
  (((match instanceId with
      | some iid => instances.find? (fun (i : Instance) => i.id = iid)
      | none => none).orElse
    (fun _ => instances.find? (fun (i : Instance) => i.id = "default"))).orElse
    (fun _ => instances.head?))

/-- Root resolution of `/install-files` (bridge.js 255-270): a truthy
`gameDir` is used verbatim; otherwise the picked instance's path;
otherwise `getMinecraftPath()` (which throws on an unsupported OS). -/
def resolveRootDir (env : Env) (gameDir : Option FPath)
    (instanceId : Option String) : Except BridgeError FPath :=
  if truthyP gameDir then .ok (gameDir.getD [])
  else
    match pickInstance (detectInstances env) instanceId with
    | some t => .ok t.path
    | none => getMinecraftPathE env

/-- One entry of the `items` array (bridge.js 239-242); each field can be
absent. -/
structure InstallItem where
  type : Option String
  url : Option String
  fileName : Option String
deriving DecidableEq, Repr

/-- The loop guard `if (!item || !item.url || !item.fileName) continue`
(bridge.js 288): an array entry is processed only when it is a truthy
object with truthy `url` and `fileName`. -/
def usableItem : Option InstallItem → Bool
  | none => false
  | some it => truthyS it.url && truthyS it.fileName

/-- `item.type || "mod"` then the subfolder mapping (bridge.js 290-293). -/
def subFolderFor (typ : Option String) : String :=
  let t := if truthyS typ then typ.getD "" else "mod"
  if t = "resourcepack" then "resourcepacks"
  else if t = "config" then "config"
  else "mods"

/-- `destPath = path.join(path.join(rootDir, subFolder), item.fileName)`
(bridge.js 295-296). -/
def destPathFor (rootDir : FPath) (typ : Option String) (fileName : String) :
    FPath :=
  joinPath (rootDir ++ [subFolderFor typ]) fileName

/-- The well-known subdirectories wiped by full mode (bridge.js 276). -/
def wellKnownFolders : List String := ["mods", "config", "resourcepacks"]

/-- One iteration of the full-mode reset loop (bridge.js 277-283):
remove the subdirectory recursively when the path exists; a removal
failure is swallowed (the idealised filesystem never fails). -/
def resetOne (rootDir : FPath) (folder : String) (fs : FS) : FS :=
  if dirExists (rootDir ++ [folder]) fs || fileExists (rootDir ++ [folder]) fs
  then rmRec (rootDir ++ [folder]) fs
  else fs

/-- The full-mode reset (bridge.js 275-284). -/
def resetDirs (rootDir : FPath) (fs : FS) : FS :=
  wellKnownFolders.foldl (fun acc f => resetOne rootDir f acc) fs

/-- The HTTP response of `/install-files`, reduced to status code and the
`success` flag. -/
structure InstallResponse where
  status : Nat
  success : Bool
deriving DecidableEq, Repr

/-- The request body of `/install-files` (bridge.js 244-245).  `items` is
`none` when the field is not an array; array entries can be null. -/
structure InstallReq where
  mode : Option String
  instanceId : Option String
  gameDir : Option FPath
  items : Option (List (Option InstallItem))
deriving Repr

/-- The download loop (bridge.js 287-300): unusable items are skipped;
for a usable item the destination is computed and `downloadFile` awaited;
its rejection aborts the whole batch.  The third component logs each
attempted fetch as (url, destination). -/
def placeItems (net : Net) (rootDir : FPath) :
    List (Option InstallItem) → FS → List (String × FPath) →
    Except BridgeError Unit × FS × List (String × FPath)
  | [], fs, log => (.ok (), fs, log)
  | none :: rest, fs, log => placeItems net rootDir rest fs log
  | some item :: rest, fs, log =>
    if truthyS item.url && truthyS item.fileName then
      match downloadFile net (item.url.getD "")
          (destPathFor rootDir item.type (item.fileName.getD "")) fs with
      | (.ok _, fs1) =>
        placeItems net rootDir rest fs1
          (log ++ [(item.url.getD "",
            destPathFor rootDir item.type (item.fileName.getD ""))])
      | (.error e, fs1) =>
        (.error e, fs1,
          log ++ [(item.url.getD "",
            destPathFor rootDir item.type (item.fileName.getD ""))])
    else placeItems net rootDir rest fs log

/-- Steps 2-4 of the orchestrator (bridge.js 255-284): resolve the root,
ensure it exists, apply the reset policy for the mode. -/
def prepareRoot (env : Env) (req : InstallReq) (fs : FS) :
    Except BridgeError (FPath × FS) :=
  match resolveRootDir env req.gameDir req.instanceId with
  | .error e => .error e
  | .ok rootDir =>
    let fs1 := ensureDir rootDir fs
    .ok (rootDir, if req.mode = some "full" then resetDirs rootDir fs1 else fs1)

/-- `!Array.isArray(items) || items.length === 0` (bridge.js 247). -/
def validItems : Option (List (Option InstallItem)) →
    Option (List (Option InstallItem))
  | none => none
  | some l => if l = [] then none else some l

/-- The `/install-files` handler (bridge.js 244-314): validate, prepare
the root, place the items; a validation failure answers 400 with no side
effect, an error thrown later answers 500, success answers 200.  Returns
the response, the final filesystem, and the fetch log. -/
def installFiles (env : Env) (net : Net) (req : InstallReq) (fs : FS) :
    InstallResponse × FS × List (String × FPath) :=
  match validItems req.items with
  | none => (⟨400, false⟩, fs, [])
  | some items =>
    match prepareRoot env req fs with
    | .error _ => (⟨500, false⟩, fs, [])
    | .ok (rootDir, fs2) =>
      match placeItems net rootDir items fs2 [] with
      | (.ok _, fs3, log) => (⟨200, true⟩, fs3, log)
      | (.error _, fs3, log) => (⟨500, false⟩, fs3, log)

/-- The persisted device-identity file: missing, unreadable (read or
JSON.parse throws), or a parsed record whose `token` field may be
absent.  The `created_at` field is elided; nothing reads it. -/
inductive ConfigFile where
  | missing
  | unreadable
  | record (token : Option String)
deriving DecidableEq, Repr

/-- The token the try-block of `getOrCreateDeviceToken` (bridge.js 34-42)
returns, when it returns one: the file exists, parses, and its `token`
field is truthy. -/
def storedToken : ConfigFile → Option String
  | .record (some t) => if t ≠ "" then some t else none
  | _ => none

/-- `getOrCreateDeviceToken` (bridge.js 32-55): return the stored token
when there is one; otherwise generate `freshToken` (`crypto.randomUUID`),
try to persist it (`writeOk` tells whether `writeFileSync` succeeds; its
failure is swallowed), and return it.  The second component is the
resulting state of the config file. -/
def getOrCreateDeviceToken (file : ConfigFile) (freshToken : String)
    (writeOk : Bool) : String × ConfigFile :=
  match storedToken file with
  | some t => (t, file)
  | none =>
    if writeOk then (freshToken, .record (some freshToken))
    else (freshToken, file)

/-- The sanitisation as the spec words it: every character outside
`[A-Za-z0-9_-]` replaced by an underscore, one underscore per such
character.  Stated for comparison with `sanitizeName`, which embeds the
code. -/
def perCharReplace (s : String) : String :=
  String.mk (s.toList.map (fun c => if wordChar c then c else '_'))

/-- Run-collapsing sanitisation, stated independently of `sanitizeChars`:
each maximal run of non-word characters becomes a single underscore. -/
def collapseRuns : List Char → List Char
  | [] => []
  | c :: cs =>
    if wordChar c then c :: collapseRuns cs
    else '_' :: collapseRuns (cs.dropWhile (fun d => !wordChar d))
termination_by l => l.length
decreasing_by
  all_goals simp_wf
  have h := (List.dropWhile_sublist (l := cs)
      (fun d => !wordChar d)).length_le
  omega

/-- A machine with a recognised platform, base path `home/mc`, and one
`versions` subfolder `v1`; used to instantiate universally quantified
theorems. -/
def envW : Env := ⟨true, ["home", "mc"], ["v1"]⟩

/-- A machine with an unrecognised platform. -/
def envU : Env := ⟨false, [], []⟩

/-- A network where every fetch succeeds. -/
def netOk : Net := fun _ => .ok

/-- C1: the spec requires a `fileName` containing path separators to be
sanitised or rejected so that `root/subdirectory/fileName` cannot escape
the target subdirectory.  The orchestrator does neither: the item below
is usable, is processed (it is the one logged fetch), and its computed
destination `home/evil.jar` lies outside `home/mc/mods` and even outside
the resolved root `home/mc`; the downloaded file lands there. -/
theorem c1_filename_escape :
    usableItem (some ⟨some "mod", some "http://x/a.jar", some "../../evil.jar"⟩) = true ∧
    destPathFor ["home", "mc"] (some "mod") "../../evil.jar" = ["home", "evil.jar"] ∧
    (installFiles envW netOk
        ⟨some "patch", none, some ["home", "mc"],
          some [some ⟨some "mod", some "http://x/a.jar", some "../../evil.jar"⟩]⟩
        ⟨[["home", "mc"]], []⟩).2.2
      = [("http://x/a.jar", ["home", "evil.jar"])] ∧
    fileExists ["home", "evil.jar"]
      (installFiles envW netOk
        ⟨some "patch", none, some ["home", "mc"],
          some [some ⟨some "mod", some "http://x/a.jar", some "../../evil.jar"⟩]⟩
        ⟨[["home", "mc"]], []⟩).2.1 = true ∧
    List.isPrefixOf ["home", "mc", "mods"] ["home", "evil.jar"] = false ∧
    List.isPrefixOf ["home", "mc"] ["home", "evil.jar"] = false := by
  decide

/-- C4: for every call to `downloadFile`, a response status other than
200, and likewise any transport-level error, rejects with an error
propagated to the caller and leaves no file at the destination path. -/
theorem c4_fetch_failure_removes_file (net : Net) (url : String)
    (dest : FPath) (fs : FS) (h : net url ≠ .ok) :
    (∃ e, (downloadFile net url dest fs).1 = .error e) ∧
    fileExists dest (downloadFile net url dest fs).2 = false := by
  unfold downloadFile
  cases hn : net url with
  | ok => exact absurd hn h
  | badStatus c =>
    refine ⟨⟨.downloadFailed c, rfl⟩, ?_⟩
    simp [fileExists, removeFile, List.mem_filter]
  | transportError m =>
    refine ⟨⟨.transport m, rfl⟩, ?_⟩
    simp [fileExists, removeFile, List.mem_filter]

theorem c4_witness :
    (∃ e, (downloadFile (fun _ => .badStatus 404) "http://x/a.jar"
        ["home", "mc", "mods", "a.jar"] ⟨[], []⟩).1 = .error e) ∧
    fileExists ["home", "mc", "mods", "a.jar"]
      (downloadFile (fun _ => .badStatus 404) "http://x/a.jar"
        ["home", "mc", "mods", "a.jar"] ⟨[], []⟩).2 = false :=
  c4_fetch_failure_removes_file (fun _ => .badStatus 404) "http://x/a.jar"
    ["home", "mc", "mods", "a.jar"] ⟨[], []⟩ (by decide)

/-- C5: a request whose `items` field is not an array or is the empty
array is answered with a 400 client failure; the filesystem is returned
untouched and the fetch log is empty, so no side effect occurred. -/
theorem c5_invalid_items_rejected (env : Env) (net : Net) (req : InstallReq)
    (fs : FS) (h : req.items = none ∨ req.items = some []) :
    installFiles env net req fs = (⟨400, false⟩, fs, []) := by
  rcases h with h | h <;> simp [installFiles, validItems, h]

theorem c5_witness :
    installFiles envW netOk ⟨some "full", none, none, some []⟩ ⟨[], []⟩
      = (⟨400, false⟩, ⟨[], []⟩, []) :=
  c5_invalid_items_rejected envW netOk ⟨some "full", none, none, some []⟩
    ⟨[], []⟩ (Or.inr rfl)

theorem sanitizeChars_true_dropWhile (l : List Char) :
    sanitizeChars true l
      = sanitizeChars false (l.dropWhile (fun d => !wordChar d)) := by
  induction l with
  | nil => rfl
  | cons c cs ih =>
    by_cases h : wordChar c = true
    · simp [sanitizeChars, h, List.dropWhile]
    · simp only [Bool.not_eq_true] at h
      simp [sanitizeChars, h, List.dropWhile, ih]

theorem sanitizeChars_eq_collapseRuns (l : List Char) :
    sanitizeChars false l = collapseRuns l := by
  induction l using collapseRuns.induct with
  | case1 => simp [sanitizeChars, collapseRuns]
  | case2 c cs h ih => simp [sanitizeChars, collapseRuns, h, ih]
  | case3 c cs h ih =>
    simp only [Bool.not_eq_true] at h
    simp [sanitizeChars, collapseRuns, h, sanitizeChars_true_dropWhile, ih]

/-- C7 counterexample: on the folder name `a!!b` the generated identifier
is `ver_a_b` (the greedy regex replaces the whole run `!!` with one
underscore), while one underscore per out-of-range character would give
`ver_a__b`. -/
theorem c7_counterexample :
    safeId "a!!b" ≠ "ver_" ++ perCharReplace "a!!b" := by decide

/-- C7 amended: the generated identifier equals the folder name with
every maximal run of characters outside `[A-Za-z0-9_-]` replaced by a
single underscore, prefixed with `ver_`. -/
theorem c7_amended_run_collapse (folderName : String) :
    safeId folderName = "ver_" ++ String.mk (collapseRuns folderName.toList) := by
  unfold safeId sanitizeName
  rw [sanitizeChars_eq_collapseRuns]

theorem stored_some_spec (f : ConfigFile) (s u : String) (w : Bool)
    (h : storedToken f = some s) : getOrCreateDeviceToken f u w = (s, f) := by
  unfold getOrCreateDeviceToken
  rw [h]

theorem stored_none_write_spec (f : ConfigFile) (u : String)
    (h : storedToken f = none) :
    getOrCreateDeviceToken f u true = (u, .record (some u)) ∧
    getOrCreateDeviceToken f u false = (u, f) := by
  unfold getOrCreateDeviceToken
  rw [h]
  exact ⟨rfl, rfl⟩

theorem storedToken_record (t : String) (ht : t ≠ "") :
    storedToken (.record (some t)) = some t := by
  simp [storedToken, ht]

/-- C8: device-identity round-trip.  A run that creates the token `t`
(any nonempty fresh token; `crypto.randomUUID` never returns the empty
string) and successfully persists it yields a file state from which any
later independent run returns the very same token and leaves the file
untouched, whatever fresh token that run would have drawn and whether or
not its own write would succeed. -/
theorem c8_token_roundtrip (file0 : ConfigFile) (t t2 : String) (w2 : Bool)
    (ht : t ≠ "") :
    getOrCreateDeviceToken (getOrCreateDeviceToken file0 t true).2 t2 w2
      = getOrCreateDeviceToken file0 t true := by
  cases h : storedToken file0 with
  | some s =>
    rw [stored_some_spec file0 s t true h]
    exact stored_some_spec file0 s t2 w2 h
  | none =>
    rw [(stored_none_write_spec file0 t h).1]
    exact stored_some_spec _ t t2 w2 (storedToken_record t ht)

theorem c8_witness :
    getOrCreateDeviceToken (getOrCreateDeviceToken .missing "uuid-1" true).2
        "uuid-2" false
      = getOrCreateDeviceToken .missing "uuid-1" true :=
  c8_token_roundtrip .missing "uuid-1" "uuid-2" false (by decide)

/-- C10: when no stored token is available and persisting the freshly
generated token fails, the write error is swallowed: the call still
returns the fresh token (it never throws, being a total function) and
the config file is left as it was. -/
theorem c10_write_failure_swallowed (file : ConfigFile) (t : String)
    (h : storedToken file = none) :
    getOrCreateDeviceToken file t false = (t, file) :=
  (stored_none_write_spec file t h).2

theorem c10_witness :
    getOrCreateDeviceToken .unreadable "uuid-3" false = ("uuid-3", .unreadable) :=
  c10_write_failure_swallowed .unreadable "uuid-3" rfl

theorem ensureDir_dirs_mono (p d : FPath) (fs : FS) (h : d ∈ fs.dirs) :
    d ∈ (ensureDir p fs).dirs := by
  unfold ensureDir
  split
  · exact h
  · exact List.mem_cons_of_mem p h

theorem ensureDir_self (p : FPath) (fs : FS) : p ∈ (ensureDir p fs).dirs := by
  unfold ensureDir
  split
  · assumption
  · exact List.mem_cons_self p fs.dirs

theorem createFile_dirs (p : FPath) (fs : FS) :
    (createFile p fs).dirs = fs.dirs := by
  unfold createFile
  split <;> rfl

theorem removeFile_dirs (p : FPath) (fs : FS) :
    (removeFile p fs).dirs = fs.dirs := rfl

theorem downloadFile_dirs_mono (net : Net) (url : String) (dest d : FPath)
    (fs : FS) (h : d ∈ fs.dirs) :
    d ∈ (downloadFile net url dest fs).2.dirs := by
  unfold downloadFile
  have hbase : d ∈ (createFile dest (ensureDir dest.dropLast fs)).dirs := by
    rw [createFile_dirs]
    exact ensureDir_dirs_mono _ _ _ h
  cases net url with
  | ok => exact hbase
  | badStatus c => simpa [removeFile_dirs] using hbase
  | transportError m => simpa [removeFile_dirs] using hbase

theorem placeItems_dirs_mono (net : Net) (root : FPath) :
    ∀ (items : List (Option InstallItem)) (fs : FS)
      (log : List (String × FPath)) (d : FPath), d ∈ fs.dirs →
      d ∈ (placeItems net root items fs log).2.1.dirs := by
  intro items
  induction items with
  | nil => intro fs log d h; simpa [placeItems] using h
  | cons it rest ih =>
    intro fs log d h
    cases it with
    | none => simpa [placeItems] using ih fs log d h
    | some item =>
      by_cases hg : (truthyS item.url && truthyS item.fileName) = true
      · rcases hdl : downloadFile net (item.url.getD "")
            (destPathFor root item.type (item.fileName.getD "")) fs with ⟨r, fs1⟩
        have h1 : d ∈ fs1.dirs := by
          have h2 := downloadFile_dirs_mono net (item.url.getD "")
            (destPathFor root item.type (item.fileName.getD "")) d fs h
          rw [hdl] at h2
          exact h2
        cases r with
        | ok u =>
          simp only [placeItems, hg, if_true, hdl]
          exact ih _ _ _ h1
        | error e =>
          simp only [placeItems, hg, if_true, hdl]
          exact h1
      · simp only [placeItems, hg, if_false, Bool.false_eq_true]
        exact ih fs log d h

theorem notPrefix_isPrefixOf_eq_false (t d : FPath) (h : ¬ t <+: d) :
    t.isPrefixOf d = false := by
  by_cases hb : t.isPrefixOf d = true
  · exact absurd (List.isPrefixOf_iff_prefix.mp hb) h
  · exact Bool.eq_false_iff.mpr hb

theorem rmRec_dirs_subset (t d : FPath) (fs : FS)
    (h : d ∈ (rmRec t fs).dirs) : d ∈ fs.dirs :=
  (List.mem_filter.mp h).1

theorem rmRec_self_not_mem (t : FPath) (fs : FS) : t ∉ (rmRec t fs).dirs := by
  intro h
  have h2 := (List.mem_filter.mp h).2
  have h3 : List.isPrefixOf t t = true :=
    List.isPrefixOf_iff_prefix.mpr (List.prefix_refl t)
  rw [h3] at h2
  simp at h2

theorem rmRec_mem_of_unrelated (t d : FPath) (fs : FS) (h : d ∈ fs.dirs)
    (hnp : ¬ t <+: d) : d ∈ (rmRec t fs).dirs := by
  refine List.mem_filter.mpr ⟨h, ?_⟩
  rw [notPrefix_isPrefixOf_eq_false t d hnp]
  rfl

theorem resetOne_dirs_subset (root : FPath) (f : String) (fs : FS) (d : FPath)
    (h : d ∈ (resetOne root f fs).dirs) : d ∈ fs.dirs := by
  unfold resetOne at h
  split at h
  · exact rmRec_dirs_subset _ _ _ h
  · exact h

theorem resetOne_absent (root : FPath) (f : String) (fs : FS) :
    (root ++ [f]) ∉ (resetOne root f fs).dirs := by
  unfold resetOne
  split
  · exact rmRec_self_not_mem _ _
  · next hguard =>
    intro hmem
    simp only [Bool.or_eq_true, dirExists, fileExists, decide_eq_true_eq] at hguard
    exact hguard (Or.inl hmem)

theorem resetOne_preserves_absent (root : FPath) (f : String) (fs : FS)
    (d : FPath) (h : d ∉ fs.dirs) : d ∉ (resetOne root f fs).dirs :=
  fun hmem => h (resetOne_dirs_subset root f fs d hmem)

theorem resetOne_preserves_unrelated (root : FPath) (f : String) (fs : FS)
    (d : FPath) (h : d ∈ fs.dirs) (hnp : ¬ (root ++ [f]) <+: d) :
    d ∈ (resetOne root f fs).dirs := by
  unfold resetOne
  split
  · exact rmRec_mem_of_unrelated _ _ _ h hnp
  · exact h

theorem not_prefix_of_append_singleton (l : FPath) (a : String) :
    ¬ (l ++ [a]) <+: l := by
  intro h
  have h2 := h.length_le
  simp at h2

theorem resetDirs_eq (root : FPath) (fs : FS) :
    resetDirs root fs
      = resetOne root "resourcepacks"
          (resetOne root "config" (resetOne root "mods" fs)) := rfl

theorem resetDirs_wellKnown_absent (root : FPath) (fs : FS) :
    ∀ f ∈ wellKnownFolders, (root ++ [f]) ∉ (resetDirs root fs).dirs := by
  intro f hf
  rw [resetDirs_eq]
  simp only [wellKnownFolders, List.mem_cons, List.not_mem_nil, or_false] at hf
  rcases hf with rfl | rfl | rfl
  · exact resetOne_preserves_absent _ _ _ _
      (resetOne_preserves_absent _ _ _ _ (resetOne_absent root "mods" fs))
  · exact resetOne_preserves_absent _ _ _ _ (resetOne_absent root "config" _)
  · exact resetOne_absent root "resourcepacks" _

theorem resetDirs_preserves_root (root : FPath) (fs : FS)
    (h : root ∈ fs.dirs) : root ∈ (resetDirs root fs).dirs := by
  rw [resetDirs_eq]
  refine resetOne_preserves_unrelated _ _ _ _ ?_ (not_prefix_of_append_singleton _ _)
  refine resetOne_preserves_unrelated _ _ _ _ ?_ (not_prefix_of_append_singleton _ _)
  exact resetOne_preserves_unrelated _ _ _ _ h (not_prefix_of_append_singleton _ _)

theorem prepareRoot_spec (env : Env) (req : InstallReq) (fs : FS)
    (rootDir : FPath) (fs2 : FS)
    (h : prepareRoot env req fs = .ok (rootDir, fs2)) :
    resolveRootDir env req.gameDir req.instanceId = .ok rootDir ∧
    fs2 = (if req.mode = some "full"
            then resetDirs rootDir (ensureDir rootDir fs)
            else ensureDir rootDir fs) := by
  unfold prepareRoot at h
  cases hres : resolveRootDir env req.gameDir req.instanceId with
  | error e => rw [hres] at h; exact absurd h (by simp)
  | ok r =>
    rw [hres] at h
    simp only [Except.ok.injEq, Prod.mk.injEq] at h
    obtain ⟨h1, h2⟩ := h
    subst h1
    exact ⟨rfl, h2.symm⟩

/-- C2: for every full-mode request that reaches the reset step, none of
the three well-known subdirectories exists under the resolved root
immediately after the reset, before any item is placed (`prepareRoot` is
exactly the validate-resolve-ensure-reset prefix of the handler). -/
theorem c2_full_reset_clears (env : Env) (req : InstallReq) (fs : FS)
    (rootDir : FPath) (fs2 : FS) (hmode : req.mode = some "full")
    (hprep : prepareRoot env req fs = .ok (rootDir, fs2)) :
    ∀ f ∈ wellKnownFolders, dirExists (rootDir ++ [f]) fs2 = false := by
  obtain ⟨-, hfs2⟩ := prepareRoot_spec env req fs rootDir fs2 hprep
  rw [hmode] at hfs2
  simp only [if_true] at hfs2
  intro f hf
  subst hfs2
  simpa [dirExists] using resetDirs_wellKnown_absent rootDir _ f hf

theorem c2_witness :
    dirExists ["root", "mods"]
      (resetDirs ["root"] (ensureDir ["root"] ⟨[["root", "mods"]], []⟩)) = false :=
  c2_full_reset_clears envW ⟨some "full", none, some ["root"], some [none]⟩
    ⟨[["root", "mods"]], []⟩ ["root"]
    (resetDirs ["root"] (ensureDir ["root"] ⟨[["root", "mods"]], []⟩))
    rfl (by rfl) "mods" (by decide)

/-- C3 counterexample: in patch mode, with an item whose `fileName` is
`../outside.txt`, the request succeeds and a file is created at
`home/mc/outside.txt`, which lies under none of the three well-known
subdirectories of the resolved root — so it is not true that only file
creations under those subdirectories occur. -/
theorem c3_counterexample :
    (installFiles envW netOk
        ⟨some "patch", none, some ["home", "mc"],
          some [some ⟨some "config", some "http://x/o.txt", some "../outside.txt"⟩]⟩
        ⟨[["home", "mc"], ["home", "mc", "mods"]], []⟩).1.success = true ∧
    fileExists ["home", "mc", "outside.txt"]
      (installFiles envW netOk
        ⟨some "patch", none, some ["home", "mc"],
          some [some ⟨some "config", some "http://x/o.txt", some "../outside.txt"⟩]⟩
        ⟨[["home", "mc"], ["home", "mc", "mods"]], []⟩).2.1 = true ∧
    fileExists ["home", "mc", "outside.txt"]
      ⟨[["home", "mc"], ["home", "mc", "mods"]], []⟩ = false ∧
    (∀ f ∈ wellKnownFolders,
      List.isPrefixOf (["home", "mc"] ++ [f]) ["home", "mc", "outside.txt"]
        = false) := by
  decide

/-- C3 amended: for every patch-mode request, whatever the items, the
orchestrator deletes no directory: every directory existing before the
request still exists after it (file placements, however, are not confined
to the three well-known subdirectories, as the counterexample shows). -/
theorem c3_patch_no_dir_deleted (env : Env) (net : Net) (req : InstallReq)
    (fs : FS) (hmode : req.mode = some "patch") (d : FPath)
    (hd : dirExists d fs = true) :
    dirExists d (installFiles env net req fs).2.1 = true := by
  simp only [dirExists, decide_eq_true_eq] at hd ⊢
  unfold installFiles
  cases hval : validItems req.items with
  | none => exact hd
  | some items =>
    cases hprep : prepareRoot env req fs with
    | error e => exact hd
    | ok pr =>
      obtain ⟨rootDir, fs2⟩ := pr
      obtain ⟨-, hfs2⟩ := prepareRoot_spec env req fs rootDir fs2 hprep
      have hne : req.mode ≠ some "full" := by rw [hmode]; decide
      rw [if_neg hne] at hfs2
      have hd2 : d ∈ fs2.dirs := by
        rw [hfs2]
        exact ensureDir_dirs_mono rootDir d fs hd
      rcases hpl : placeItems net rootDir items fs2 [] with ⟨r, fs3, log⟩
      have hd3 : d ∈ fs3.dirs := by
        have h4 := placeItems_dirs_mono net rootDir items fs2 [] d hd2
        rw [hpl] at h4
        exact h4
      cases r with
      | ok u => simpa [hpl] using hd3
      | error e => simpa [hpl] using hd3

theorem c3_witness :
    dirExists ["home", "mc", "mods"]
      (installFiles envW netOk
        ⟨some "patch", none, some ["home", "mc"],
          some [some ⟨some "config", some "http://x/o.txt", some "../outside.txt"⟩]⟩
        ⟨[["home", "mc"], ["home", "mc", "mods"]], []⟩).2.1 = true :=
  c3_patch_no_dir_deleted envW netOk
    ⟨some "patch", none, some ["home", "mc"],
      some [some ⟨some "config", some "http://x/o.txt", some "../outside.txt"⟩]⟩
    ⟨[["home", "mc"], ["home", "mc", "mods"]], []⟩ rfl
    ["home", "mc", "mods"] (by decide)

theorem placeItems_all_skipped (net : Net) (root : FPath) :
    ∀ (items : List (Option InstallItem)) (fs : FS)
      (log : List (String × FPath)),
      (∀ it ∈ items, usableItem it = false) →
      placeItems net root items fs log = (.ok (), fs, log) := by
  intro items
  induction items with
  | nil => intro fs log h; rfl
  | cons it rest ih =>
    intro fs log h
    have hrest : ∀ x ∈ rest, usableItem x = false :=
      fun x hx => h x (List.mem_cons_of_mem _ hx)
    cases it with
    | none =>
      simp only [placeItems]
      exact ih fs log hrest
    | some item =>
      have hg := h (some item) (List.mem_cons_self _ _)
      simp only [usableItem] at hg
      simp only [placeItems, hg]
      simp only [Bool.false_eq_true, if_false]
      exact ih fs log hrest

/-- C9: a request whose non-empty items list contains only unusable
items (each entry null or lacking a truthy `url` or `fileName`) reports
success with an empty fetch log, yet the root directory exists afterwards
and, when the mode is `full`, the three well-known subdirectories have
been reset away. -/
theorem c9_unusable_items_noop_success (env : Env) (net : Net)
    (req : InstallReq) (fs : FS) (items : List (Option InstallItem))
    (rootDir : FPath) (fs2 : FS)
    (hitems : req.items = some items) (hne : items ≠ [])
    (hskip : ∀ it ∈ items, usableItem it = false)
    (hprep : prepareRoot env req fs = .ok (rootDir, fs2)) :
    installFiles env net req fs = (⟨200, true⟩, fs2, []) ∧
    dirExists rootDir fs2 = true ∧
    (req.mode = some "full" →
      ∀ f ∈ wellKnownFolders, dirExists (rootDir ++ [f]) fs2 = false) := by
  have hval : validItems req.items = some items := by
    rw [hitems]
    simp [validItems, hne]
  refine ⟨?_, ?_, ?_⟩
  · unfold installFiles
    rw [hval, hprep]
    dsimp only
    rw [placeItems_all_skipped net rootDir items fs2 [] hskip]
  · obtain ⟨-, hfs2⟩ := prepareRoot_spec env req fs rootDir fs2 hprep
    simp only [dirExists, decide_eq_true_eq]
    subst hfs2
    split
    · exact resetDirs_preserves_root rootDir _ (ensureDir_self rootDir fs)
    · exact ensureDir_self rootDir fs
  · intro hmode f hf
    obtain ⟨-, hfs2⟩ := prepareRoot_spec env req fs rootDir fs2 hprep
    rw [hmode] at hfs2
    simp only [if_true] at hfs2
    subst hfs2
    simpa [dirExists] using resetDirs_wellKnown_absent rootDir _ f hf

theorem c9_witness :
    (installFiles envW netOk
        ⟨some "full", none, some ["root"], some [some ⟨some "mod", none, none⟩]⟩
        ⟨[["root", "mods"]], []⟩
      = (⟨200, true⟩,
          resetDirs ["root"] (ensureDir ["root"] ⟨[["root", "mods"]], []⟩), [])) ∧
    dirExists ["root"]
      (resetDirs ["root"] (ensureDir ["root"] ⟨[["root", "mods"]], []⟩)) = true ∧
    ((some "full" : Option String) = some "full" →
      ∀ f ∈ wellKnownFolders,
        dirExists (["root"] ++ [f])
          (resetDirs ["root"] (ensureDir ["root"] ⟨[["root", "mods"]], []⟩))
          = false) :=
  c9_unusable_items_noop_success envW netOk
    ⟨some "full", none, some ["root"], some [some ⟨some "mod", none, none⟩]⟩
    ⟨[["root", "mods"]], []⟩ [some ⟨some "mod", none, none⟩] ["root"]
    (resetDirs ["root"] (ensureDir ["root"] ⟨[["root", "mods"]], []⟩))
    rfl (by decide) (by decide) (by rfl)

/-- C6: root-resolution precedence.  (1) A supplied non-empty root path
is used verbatim; otherwise the picked instance decides, where
(2) an instance whose id matches the given identifier is picked when one
exists, (3) else an instance with id `default` when one exists,
(4) else the first instance of a non-empty list, and
(5) the picked instance's path becomes the resolved root;
(6) with no discovered instance at all, resolution falls back to
`getMinecraftPath` directly (which throws on an unsupported platform,
the only way discovery comes back empty). -/
theorem c6_root_resolution_precedence (env : Env) (iid : Option String) :
    (∀ g : FPath, g ≠ [] → resolveRootDir env (some g) iid = .ok g)
  ∧ (∀ (l : List Instance) (s : String), (∃ i ∈ l, i.id = s) →
        ∃ j ∈ l, j.id = s ∧ pickInstance l (some s) = some j)
  ∧ (∀ l : List Instance, (∀ i ∈ l, (some i.id : Option String) ≠ iid) →
        (∃ d ∈ l, d.id = "default") →
        ∃ j ∈ l, j.id = "default" ∧ pickInstance l iid = some j)
  ∧ (∀ (l : List Instance) (i0 : Instance) (rest : List Instance),
        (∀ i ∈ l, (some i.id : Option String) ≠ iid) →
        (∀ i ∈ l, i.id ≠ "default") → l = i0 :: rest →
        pickInstance l iid = some i0)
  ∧ (∀ t : Instance, pickInstance (detectInstances env) iid = some t →
        resolveRootDir env none iid = .ok t.path)
  ∧ (detectInstances env = [] →
        resolveRootDir env none iid = getMinecraftPathE env) := by
  refine ⟨?_, ?_, ?_, ?_, ?_, ?_⟩
  · intro g hg
    simp [resolveRootDir, truthyP, hg]
  · intro l s hex
    obtain ⟨i, hi, hid⟩ := hex
    have hsome : (l.find? (fun (i : Instance) => i.id = s)).isSome :=
      List.find?_isSome.mpr ⟨i, hi, by simp [hid]⟩
    obtain ⟨j, hj⟩ := Option.isSome_iff_exists.mp hsome
    refine ⟨j, List.mem_of_find?_eq_some hj, by simpa using List.find?_some hj, ?_⟩
    simp [pickInstance, hj, Option.orElse]
  · intro l hno hdef
    obtain ⟨d, hd, hdid⟩ := hdef
    have hfind1 :
        (match iid with
          | some s => l.find? (fun (i : Instance) => i.id = s)
          | none => none) = none := by
      cases iid with
      | none => rfl
      | some s =>
        refine List.find?_eq_none.mpr ?_
        intro x hx
        have := hno x hx
        simp only [ne_eq, Option.some.injEq] at this
        simp [this]
    have hsome : (l.find? (fun (i : Instance) => i.id = "default")).isSome :=
      List.find?_isSome.mpr ⟨d, hd, by simp [hdid]⟩
    obtain ⟨j, hj⟩ := Option.isSome_iff_exists.mp hsome
    refine ⟨j, List.mem_of_find?_eq_some hj, by simpa using List.find?_some hj, ?_⟩
    simp [pickInstance, hfind1, hj, Option.orElse]
  · intro l i0 rest hno hnodef hl
    subst hl
    have hfind1 :
        (match iid with
          | some s => (i0 :: rest).find? (fun (i : Instance) => i.id = s)
          | none => none) = none := by
      cases iid with
      | none => rfl
      | some s =>
        refine List.find?_eq_none.mpr ?_
        intro x hx
        have := hno x hx
        simp only [ne_eq, Option.some.injEq] at this
        simp [this]
    have hfind2 :
        (i0 :: rest).find? (fun (i : Instance) => i.id = "default") = none := by
      refine List.find?_eq_none.mpr ?_
      intro x hx
      simp [hnodef x hx]
    simp [pickInstance, hfind1, hfind2, Option.orElse]
  · intro t ht
    simp [resolveRootDir, truthyP, ht]
  · intro h0
    have hpick : pickInstance (detectInstances env) iid = none := by
      rw [h0]
      cases iid <;> simp [pickInstance, Option.orElse]
    simp [resolveRootDir, truthyP, hpick]

theorem c6_witness :
    resolveRootDir envW (some ["g"]) none = .ok ["g"] ∧
    (∃ j ∈ detectInstances envW, j.id = "ver_v1" ∧
      pickInstance (detectInstances envW) (some "ver_v1") = some j) ∧
    (∃ j ∈ detectInstances envW, j.id = "default" ∧
      pickInstance (detectInstances envW) (some "nope") = some j) ∧
    pickInstance [⟨"a", "b", ["p"], "k"⟩] (some "nope")
      = some ⟨"a", "b", ["p"], "k"⟩ ∧
    resolveRootDir envW none (some "ver_v1")
      = .ok ["home", "mc", "versions", "v1"] ∧
    resolveRootDir envU none none = getMinecraftPathE envU :=
  ⟨(c6_root_resolution_precedence envW none).1 ["g"] (by decide),
   (c6_root_resolution_precedence envW (some "ver_v1")).2.1
     (detectInstances envW) "ver_v1" (by decide),
   (c6_root_resolution_precedence envW (some "nope")).2.2.1
     (detectInstances envW) (by decide) (by decide),
   (c6_root_resolution_precedence envW (some "nope")).2.2.2.1
     [⟨"a", "b", ["p"], "k"⟩] ⟨"a", "b", ["p"], "k"⟩ [] (by decide) (by decide) rfl,
   (c6_root_resolution_precedence envW (some "ver_v1")).2.2.2.2.1
     ⟨"ver_v1", "v1 (Version Folder)", ["home", "mc", "versions", "v1"], "version"⟩
     (by decide),
   (c6_root_resolution_precedence envU none).2.2.2.2.2 (by decide)⟩
